import Mathlib

/-!
# Verification of the Go-TransferScript repository

Shallow embedding of `src/main.go` (a bulk GitHub-repository transfer script:
config loading, a per-repository HTTP transfer with response classification,
a fixed worker pool over a jobs channel, and a string-parsed success/failure
tally), together with theorems settling the specification claims.

The HTTP transport itself (the resty client) and the file system / JSON
decoder are external collaborators; they enter the model as explicit inputs
(a delivery result per request, a parsed-config option), while everything the
repository's own code does with them is translated faithfully.
-/

namespace TransferScript

/-- `Config` mirrors the Go struct loaded from `config.json`
(`originalUser`, `newUser`, `repositories`). -/
structure Config where
  originalUser : String
  newUser : String
  repositories : List String
deriving Repr, DecidableEq

/-- Result of delivering (or failing to deliver) one HTTP request:
status code and body of the response.  Mirrors the pair
`(res, err)` returned by the resty call in `transferRepo`. -/
structure HttpResponse where
  statusCode : Nat
  body : String
deriving Repr, DecidableEq

/-- `loadConfig` after the two external effects (file read, JSON unmarshal)
are given as input: `none` models a read error, `some none` an unmarshal
error, `some (some c)` a successfully parsed `Config`.  The validation
checks are exactly those of `loadConfig` in `src/main.go` lines 46–51. -/
def loadConfig (fileData : Option (Option Config)) : Except String Config :=
  match fileData with
  | none => .error "failed to read config file"
  | some none => .error "failed to unmarshal config data"
  | some (some config) =>
    if config.originalUser = "" ∨ config.newUser = "" then
      .error "originalUser and newUser must be specified in config"
    else if config.repositories.length = 0 then
      .error "repositories list cannot be empty in config"
    else
      .ok config

/-- The transfer endpoint URL built in `main`
(`fmt.Sprintf("https://api.github.com/repos/%s/%s/transfer", oUser, repoName)`). -/
def transferAPIURL (oUser repoName : String) : String :=
  "https://api.github.com/repos/" ++ oUser ++ "/" ++ repoName ++ "/transfer"

/-- An HTTP request as the script assembles it: method, URL, the JSON body
fields, and the headers. -/
structure HttpRequest where
  method : String
  url : String
  bodyFields : List (String × String)
  headers : List (String × String)
deriving Repr, DecidableEq

/-- Modelled from the spec: the resty client (external library, not under
`src/`) serializes the `map[string]string` body as JSON and adds the
`Content-Type: application/json` header to the request; spec §4.1 lists it
among the required headers. -/
def restyJSONContentType : String × String := ("Content-Type", "application/json")

/-- The single request `transferRepo` issues (`src/main.go` lines 66–74):
POST to the given URL, body `{"new_owner": newUser, "new_name": repoName}`,
with the `Accept`, `Authorization` and `X-GitHub-Api-Version` headers set
explicitly and `Content-Type` added by the client. -/
def transferRequest (transferURL newUser repoName githubToken : String) : HttpRequest :=
  { method := "POST"
    url := transferURL
    bodyFields := [("new_owner", newUser), ("new_name", repoName)]
    headers := [("Accept", "application/vnd.github+json"),
                ("Authorization", "Bearer " ++ githubToken),
                ("X-GitHub-Api-Version", "2022-11-28"),
                restyJSONContentType] }

/-- The error message of the 401 branch of `transferRepo`. -/
def unauthorizedMsg (repoName : String) (code : Nat) (body : String) : String :=
  "repo " ++ repoName ++ ": Unauthorized (HTTP " ++ toString code ++
    "). Check GitHub token and permissions. Response: " ++ body

/-- The error message of the 403 branch of `transferRepo`. -/
def forbiddenMsg (repoName : String) (code : Nat) (body : String) : String :=
  "repo " ++ repoName ++ ": Forbidden (HTTP " ++ toString code ++
    "). API rate limits or insufficient permissions. Response: " ++ body

/-- The error message of the 404 branch of `transferRepo`. -/
def notFoundMsg (repoName : String) (code : Nat) (body : String) : String :=
  "repo " ++ repoName ++ ": Repository or user not found (HTTP " ++ toString code ++
    "). Response: " ++ body

/-- The error message of the 422 branch of `transferRepo`. -/
def unprocessableMsg (repoName : String) (code : Nat) (body : String) : String :=
  "repo " ++ repoName ++ ": Unprocessable Entity (HTTP " ++ toString code ++
    "). Semantic errors. Response: " ++ body

/-- The error message of the default branch of `transferRepo`. -/
def unexpectedMsg (repoName : String) (code : Nat) (body : String) : String :=
  "repo " ++ repoName ++ ": Unexpected status code (HTTP " ++ toString code ++
    "). Response: " ++ body

/-- The error message of the transport-error branch of `transferRepo`
(`fmt.Errorf("client request for repo %s failed: %w", repoName, err)`). -/
def clientFailedMsg (repoName : String) (errText : String) : String :=
  "client request for repo " ++ repoName ++ " failed: " ++ errText

/-- `transferRepo` from `src/main.go` lines 59–111, with the network's
behaviour supplied as the `delivery` argument (`.error e` models a non-nil
`err` from the client after its internal retries, `.ok res` a delivered
response).  It returns `none` for a nil Go error and `some msg` for a
non-nil error with text `msg`, following the status-code switch exactly. -/
def transferRepo (delivery : Except String HttpResponse) (repoName : String) :
    Option String :=
  match delivery with
  | .error errText => some (clientFailedMsg repoName errText)
  | .ok res =>
    match res.statusCode with
    | 202 => none
    | 401 => some (unauthorizedMsg repoName res.statusCode res.body)
    | 403 => some (forbiddenMsg repoName res.statusCode res.body)
    | 404 => some (notFoundMsg repoName res.statusCode res.body)
    | 422 => some (unprocessableMsg repoName res.statusCode res.body)
    | _ => some (unexpectedMsg repoName res.statusCode res.body)

/-! ## Worker result messages and the Sscanf-based tally -/

/-- The success message a worker sends on the results channel
(`fmt.Sprintf("[SUCCESS] Worker %d, Repo %s: Transfer successful", workerID, repoName)`). -/
def successMsg (workerID : Nat) (repoName : String) : String :=
  "[SUCCESS] Worker " ++ toString workerID ++ ", Repo " ++ repoName ++
    ": Transfer successful"

/-- The failure message a worker sends on the results channel
(`fmt.Sprintf("[FAIL] Worker %d, Repo %s: %v", workerID, repoName, err)`). -/
def failMsg (workerID : Nat) (repoName : String) (errText : String) : String :=
  "[FAIL] Worker " ++ toString workerID ++ ", Repo " ++ repoName ++ ": " ++ errText

/-- The token step of `fmt.Sscanf`'s `%s` verb: skip a run of spaces, then
require a token character.  With `Sscanf` newlines in the input must match
newlines in the format, so a newline where the format has `%s` is a scan
error; an empty remainder is an EOF error.  (Space-skipping is modelled for
the ASCII space character, the only whitespace the worker messages contain
at the scanned position.) -/
def sscanfTokenOk : List Char → Bool
  | [] => false
  | c :: cs => if c = ' ' then sscanfTokenOk cs else c ≠ '\n'

/-- Literal-prefix matching of `fmt.Sscanf` against format `"[SUCCESS]%s"`:
the non-space format literals must match the input exactly, then `%s` must
scan a token. -/
def sscanfMatch : List Char → List Char → Bool
  | [], rest => sscanfTokenOk rest
  | _ :: _, [] => false
  | c :: cs, d :: ds => c = d && sscanfMatch cs ds

/-- The test on `src/main.go` line 197:
`fmt.Sscanf(resMsg, "[SUCCESS]%s", new(string))` returns a nil error. -/
def sscanfSuccessOk (resMsg : String) : Bool :=
  sscanfMatch "[SUCCESS]".data resMsg.data

/-- The summary loop of `main` (`src/main.go` lines 192–202): fold over the
drained results channel, incrementing `successCount` when the Sscanf check
succeeds and `failureCount` otherwise. -/
def tallyLoop : List String → Nat → Nat → Nat × Nat
  | [], successCount, failureCount => (successCount, failureCount)
  | resMsg :: rest, successCount, failureCount =>
    if sscanfSuccessOk resMsg then tallyLoop rest (successCount + 1) failureCount
    else tallyLoop rest successCount (failureCount + 1)

/-- The final `(successCount, failureCount)` pair computed by `main`. -/
def tally (results : List String) : Nat × Nat := tallyLoop results 0 0

/-- Outcome kinds of the spec's taxonomy, as far as the tally distinguishes
them: `Success` versus any `Failure` variant. -/
inductive OutcomeKind
  | success
  | failure
deriving Repr, DecidableEq

/-- The kind `main`'s tally assigns to a result message. -/
def msgKind (resMsg : String) : OutcomeKind :=
  if sscanfSuccessOk resMsg then .success else .failure

/-- The message the worker loop (`src/main.go` lines 162–175) emits for one
job: it calls `transferRepo` (with the network's delivery for that job given
by `api`) and sends exactly one formatted line on the results channel. -/
def resultMsg (api : String → Except String HttpResponse) (workerID : Nat)
    (repoName : String) : String :=
  match transferRepo (api repoName) repoName with
  | none => successMsg workerID repoName
  | some errText => failMsg workerID repoName errText

/-- The outcome kind of a job, determined by `transferRepo` alone. -/
def jobKind (api : String → Except String HttpResponse) (repoName : String) :
    OutcomeKind :=
  match transferRepo (api repoName) repoName with
  | none => .success
  | some _ => .failure

/-! ## Transport retry (resty client configuration) -/

/-- `SetRetryCount(3)` in `main` (`src/main.go` line 143). -/
def clientRetryCount : Nat := 3

/-- `SetRetryWaitTime(2 * time.Second)` in `main`, in seconds. -/
def clientRetryWaitTime : Nat := 2

/-- `SetRetryMaxWaitTime(10 * time.Second)` in `main`, in seconds. -/
def clientRetryMaxWaitTime : Nat := 10

/-- Modelled from the spec: the wait between consecutive transport attempts.
The resty client's backoff implementation is external (not under `src/`);
spec §4.1 describes "bounded exponential-ish backoff" with the configured
initial and maximum waits, so the wait before retry `i` doubles from the
initial wait and is capped at the maximum. -/
def retryBackoffWait (waitTime maxWaitTime attempt : Nat) : Nat :=
  min (waitTime * 2 ^ attempt) maxWaitTime

/-- Modelled from the spec: the resty client's transport-retry loop (external,
not under `src/`).  Per spec §4.1 the executor makes up to `fuel` attempts —
`net k` is the network's answer to attempt `k` (`none` = connection failure) —
stopping at the first delivered response; it reports the response together
with the number of attempts used, or `none` when all attempts failed. -/
def attemptLoop (net : Nat → Option HttpResponse) : Nat → Nat → Option (HttpResponse × Nat)
  | _, 0 => none
  | k, fuel + 1 =>
    match net k with
    | some res => some (res, k + 1)
    | none => attemptLoop net (k + 1) fuel

/-- Modelled from the spec: one logical request delivery through the retrying
client — up to `retryCount` attempts, then either the delivered response or
a single transport error once attempts are exhausted.  This is the `(res,
err)` pair the resty call in `transferRepo` returns, with the attempt count
exposed. -/
def executeWithRetry (net : Nat → Option HttpResponse) (retryCount : Nat) :
    Except String HttpResponse × Nat :=
  match attemptLoop net 0 retryCount with
  | some (res, used) => (.ok res, used)
  | none => (.error "connection failure: retries exhausted", retryCount)

/-- The two messages the worker can emit for one job form a one-element list:
each branch of `src/main.go` lines 168–174 performs exactly one channel send. -/
def jobMessages (delivery : Except String HttpResponse) (workerID : Nat)
    (repoName : String) : List String :=
  match transferRepo delivery repoName with
  | none => [successMsg workerID repoName]
  | some errText => [failMsg workerID repoName errText]

/-! ## The run coordinator (`main`) -/

/-- Terminal states of one run of `main`. -/
inductive RunOutcome
  | fatalEnvError
  | credentialError
  | configError (msg : String)
  | earlyExit
  | completed (total successCount failureCount : Nat)
deriving Repr, DecidableEq

/-- The pre-dispatch sequence of `main` (`src/main.go` lines 113–205) with its
external effects as inputs: `dotenvOk` is whether `godotenv.Load` succeeded,
`githubToken` the value of `GITHUB_TOKEN_CLASSIC`, `configFile` the outcome of
reading and unmarshalling `config.json`, and `api` the network's delivery per
repository.  Returns the terminal state together with the number of jobs
dispatched (each dispatched job issues HTTP traffic; a fatal path dispatches
none).  The job phase is the schedule-independent denotation of the worker
pool: one result message per repository, tallied by the Sscanf loop (the pool
lemmas below show any schedule yields the same counts). -/
def mainRun (dotenvOk : Bool) (githubToken : String)
    (configFile : Option (Option Config))
    (api : String → Except String HttpResponse) : RunOutcome × Nat :=
  if !dotenvOk then (.fatalEnvError, 0)
  else if githubToken = "" then (.credentialError, 0)
  else
    match loadConfig configFile with
    | .error e => (.configError e, 0)
    | .ok appConfig =>
      let allRepos := appConfig.repositories
      if allRepos.length = 0 then (.earlyExit, 0)
      else
        let results := allRepos.map (fun repo => resultMsg api 1 repo)
        let counts := tally results
        (.completed allRepos.length counts.1 counts.2, allRepos.length)

/-! ## The worker pool (job dispatcher) -/

inductive WStatus
  | idle
  | busy (repoName : String)
  | done
deriving Repr, DecidableEq

structure PoolState where
  pending : List String
  workers : List WStatus
  results : List String
deriving Repr, DecidableEq

def resultMsgW (api : String → Except String HttpResponse) (i : Nat) (r : String) : String :=
  resultMsg api (i + 1) r

inductive Step (api : String → Except String HttpResponse) : PoolState → PoolState → Prop
  | claim (i : Nat) (r : String) (rest : List String) (ws : List WStatus) (res : List String) :
      ws[i]? = some .idle →
      Step api ⟨r :: rest, ws, res⟩ ⟨rest, ws.set i (.busy r), res⟩
  | publish (i : Nat) (r : String) (p : List String) (ws : List WStatus) (res : List String) :
      ws[i]? = some (.busy r) →
      Step api ⟨p, ws, res⟩ ⟨p, ws.set i .idle, res ++ [resultMsgW api i r]⟩
  | finish (i : Nat) (ws : List WStatus) (res : List String) :
      ws[i]? = some .idle →
      Step api ⟨[], ws, res⟩ ⟨[], ws.set i .done, res⟩

def initState (jobs : List String) (numWorkers : Nat) : PoolState :=
  ⟨jobs, List.replicate numWorkers .idle, []⟩

def Reachable (api : String → Except String HttpResponse) (jobs : List String)
    (numWorkers : Nat) (s : PoolState) : Prop :=
  Relation.ReflTransGen (Step api) (initState jobs numWorkers) s

def Final (s : PoolState) : Prop :=
  s.pending = [] ∧ ∀ w ∈ s.workers, w = WStatus.done

def wKind (api : String → Except String HttpResponse) : WStatus → Option OutcomeKind
  | .busy r => some (jobKind api r)
  | .idle => none
  | .done => none

def wWeight : WStatus → Nat
  | .idle => 1
  | .busy _ => 2
  | .done => 0

def poolMeasure (s : PoolState) : Nat :=
  2 * s.pending.length + (s.workers.map wWeight).sum

def stateKinds (api : String → Except String HttpResponse) (s : PoolState) :
    Multiset OutcomeKind :=
  ↑(s.pending.map (jobKind api)) + ↑(s.workers.filterMap (wKind api))
    + ↑(s.results.map msgKind)

def PoolInv (api : String → Except String HttpResponse) (jobs0 : List String)
    (W : Nat) (s : PoolState) : Prop :=
  s.workers.length = W ∧
  (WStatus.done ∈ s.workers → s.pending = []) ∧
  stateKinds api s = ↑(jobs0.map (jobKind api))

/-! ## Helper lemmas: Sscanf and the tally -/

lemma sscanfMatch_self_append (l : List Char) :
    sscanfMatch "[SUCCESS]".data ("[SUCCESS]".data ++ l) = sscanfTokenOk l := by
  simp [sscanfMatch]

lemma sscanfSuccessOk_successMsg (w : Nat) (r : String) :
    sscanfSuccessOk (successMsg w r) = true := by
  have hdata : (successMsg w r).data =
      "[SUCCESS]".data ++ (" Worker ".data ++ (toString w).data ++ ", Repo ".data
        ++ r.data ++ ": Transfer successful".data) := by
    simp [successMsg, String.data_append]
  rw [sscanfSuccessOk, hdata, sscanfMatch_self_append]
  simp [sscanfTokenOk]

lemma sscanfSuccessOk_failMsg (w : Nat) (r e : String) :
    sscanfSuccessOk (failMsg w r e) = false := by
  have hdata : (failMsg w r e).data =
      '[' :: 'F' :: ("AIL] Worker ".data ++ (toString w).data ++ ", Repo ".data
        ++ r.data ++ ": ".data ++ e.data) := by
    simp [failMsg, String.data_append]
  rw [sscanfSuccessOk, hdata]
  simp [sscanfMatch]

lemma msgKind_resultMsg (api : String → Except String HttpResponse)
    (w : Nat) (r : String) : msgKind (resultMsg api w r) = jobKind api r := by
  unfold msgKind resultMsg jobKind
  cases transferRepo (api r) r with
  | none => simp [sscanfSuccessOk_successMsg]
  | some e => simp [sscanfSuccessOk_failMsg]

lemma tallyLoop_eq (l : List String) (s f : Nat) :
    tallyLoop l s f =
      (s + l.countP (fun m => sscanfSuccessOk m),
       f + l.countP (fun m => !sscanfSuccessOk m)) := by
  induction l generalizing s f with
  | nil => simp [tallyLoop]
  | cons m rest ih =>
    by_cases hm : sscanfSuccessOk m
    · simp [tallyLoop, hm, ih, List.countP_cons]
      omega
    · simp only [Bool.not_eq_true] at hm
      simp [tallyLoop, hm, ih, List.countP_cons]
      omega

lemma tally_eq (l : List String) :
    tally l = (l.countP (fun m => sscanfSuccessOk m),
               l.countP (fun m => !sscanfSuccessOk m)) := by
  simp [tally, tallyLoop_eq]

lemma tally_sum (l : List String) : (tally l).1 + (tally l).2 = l.length := by
  rw [tally_eq]
  simpa using (l.length_eq_countP_add_countP (fun m => sscanfSuccessOk m)).symm

/-! ## Helper lemmas: the worker pool -/

lemma ms_swap {κ : Type} (x y : κ) (s : Multiset κ) :
    (x ::ₘ s) + {y} = (y ::ₘ s) + {x} := by
  rw [← Multiset.singleton_add x s, ← Multiset.singleton_add y s]
  abel

lemma filterMap_set {κ : Type} (f : WStatus → Option κ) (l : List WStatus)
    (i : Nat) (a b : WStatus) (h : l[i]? = some a) :
    (↑((l.set i b).filterMap f) : Multiset κ) + ↑(f a).toList
      = ↑(l.filterMap f) + ↑(f b).toList := by
  induction l generalizing i with
  | nil => simp at h
  | cons x t ih =>
    cases i with
    | zero =>
      simp only [List.getElem?_cons_zero, Option.some.injEq] at h
      subst h
      show (↑((b :: t).filterMap f) : Multiset κ) + ↑(f x).toList
        = ↑((x :: t).filterMap f) + ↑(f b).toList
      cases hfx : f x <;> cases hfb : f b <;>
        (simp [List.filterMap_cons, hfx, hfb, ← Multiset.cons_coe, ms_swap,
          ← Multiset.singleton_add, add_comm]
         try abel)
    | succ n =>
      simp only [List.getElem?_cons_succ] at h
      show (↑((x :: t.set n b).filterMap f) : Multiset κ) + ↑(f a).toList
        = ↑((x :: t).filterMap f) + ↑(f b).toList
      cases hfx : f x <;>
        simp [List.filterMap_cons, hfx, ← Multiset.cons_coe,
          ← Multiset.singleton_add, add_assoc, ih n h]

lemma sum_map_set (g : WStatus → Nat) (l : List WStatus) (i : Nat) (a b : WStatus)
    (h : l[i]? = some a) :
    ((l.set i b).map g).sum + g a = (l.map g).sum + g b := by
  induction l generalizing i with
  | nil => simp at h
  | cons x t ih =>
    cases i with
    | zero =>
      simp only [List.getElem?_cons_zero, Option.some.injEq] at h
      subst h
      show ((b :: t).map g).sum + g x = ((x :: t).map g).sum + g b
      simp only [List.map_cons, List.sum_cons]
      omega
    | succ n =>
      simp only [List.getElem?_cons_succ] at h
      show ((x :: t.set n b).map g).sum + g a = ((x :: t).map g).sum + g b
      have hrec := ih n h
      simp only [List.map_cons, List.sum_cons]
      omega

lemma poolInv_init (api : String → Except String HttpResponse) (jobs0 : List String)
    (W : Nat) : PoolInv api jobs0 W (initState jobs0 W) := by
  refine ⟨by simp [initState], ?_, ?_⟩
  · intro hmem
    have := List.eq_of_mem_replicate hmem
    simp at this
  · have hfm : (List.replicate W WStatus.idle).filterMap (wKind api) = [] := by
      rw [List.filterMap_eq_nil_iff]
      intro w hw
      rw [List.eq_of_mem_replicate hw]
      rfl
    simp [stateKinds, initState, hfm]

lemma poolInv_step {api : String → Except String HttpResponse} {jobs0 : List String}
    {W : Nat} {s t : PoolState} (hinv : PoolInv api jobs0 W s) (hst : Step api s t) :
    PoolInv api jobs0 W t := by
  obtain ⟨hlen, hdone, hkinds⟩ := hinv
  cases hst with
  | claim i r rest ws res h =>
    refine ⟨by simpa using hlen, ?_, ?_⟩
    · intro hmem
      rcases List.mem_or_eq_of_mem_set hmem with hmem1 | heq
      · exact absurd (hdone hmem1) (by simp)
      · exact absurd heq (by simp)
    · have hfm := filterMap_set (wKind api) ws i .idle (.busy r) h
      simp only [wKind, Option.toList_none, Option.toList_some, Multiset.coe_nil,
        Multiset.coe_singleton, add_zero] at hfm
      rw [← hkinds]
      simp only [stateKinds, List.map_cons, ← Multiset.cons_coe, ← Multiset.singleton_add]
      rw [hfm]
      abel
  | publish i r p ws res h =>
    refine ⟨by simpa using hlen, ?_, ?_⟩
    · intro hmem
      rcases List.mem_or_eq_of_mem_set hmem with hmem1 | heq
      · exact hdone hmem1
      · exact absurd heq (by simp)
    · have hfm := filterMap_set (wKind api) ws i (.busy r) .idle h
      simp only [wKind, Option.toList_none, Option.toList_some, Multiset.coe_nil,
        Multiset.coe_singleton, add_zero] at hfm
      rw [← hkinds]
      simp only [stateKinds, List.map_append, List.map_cons, List.map_nil,
        ← Multiset.coe_add, Multiset.coe_singleton,
        msgKind_resultMsg api (i + 1) r]
      have hmw : msgKind (resultMsgW api i r) = jobKind api r :=
        msgKind_resultMsg api (i + 1) r
      rw [hmw, ← hfm]
      abel
  | finish i ws res h =>
    refine ⟨by simpa using hlen, fun _ => rfl, ?_⟩
    have hfm := filterMap_set (wKind api) ws i .idle .done h
    simp only [wKind, Option.toList_none, Multiset.coe_nil, add_zero] at hfm
    rw [← hkinds]
    simp only [stateKinds]
    rw [hfm]

lemma poolInv_reachable {api : String → Except String HttpResponse}
    {jobs0 : List String} {W : Nat} {s : PoolState}
    (hs : Reachable api jobs0 W s) : PoolInv api jobs0 W s := by
  induction hs with
  | refl => exact poolInv_init api jobs0 W
  | tail hmid hstep ih => exact poolInv_step ih hstep

lemma pool_progress {api : String → Except String HttpResponse}
    {jobs0 : List String} {W : Nat} {s : PoolState} (hW : 1 ≤ W)
    (hinv : PoolInv api jobs0 W s) (hnf : ¬ Final s) :
    ∃ t, Step api s t := by
  obtain ⟨hlen, hdone, _⟩ := hinv
  obtain ⟨pending, ws, res⟩ := s
  cases hp : pending with
  | cons r rest =>
    subst hp
    have hne : ws ≠ [] := by
      intro hnil
      rw [hnil] at hlen
      simp at hlen
      omega
    obtain ⟨w0, t, rfl⟩ := List.exists_cons_of_ne_nil hne
    cases w0 with
    | idle => exact ⟨_, Step.claim 0 r rest (.idle :: t) res (by simp)⟩
    | busy r2 => exact ⟨_, Step.publish 0 r2 (r :: rest) (.busy r2 :: t) res (by simp)⟩
    | done =>
      exfalso
      have h1 : (r : String) :: rest = [] := hdone (List.mem_cons_self _ _)
      simp at h1
  | nil =>
    subst hp
    have hex : ∃ w ∈ ws, w ≠ WStatus.done := by
      by_contra hall
      push_neg at hall
      exact hnf ⟨rfl, fun w hw => hall w hw⟩
    obtain ⟨w, hwmem, hwne⟩ := hex
    obtain ⟨n, hn, hget⟩ := List.getElem_of_mem hwmem
    have hget2 : ws[n]? = some w := by
      rw [List.getElem?_eq_getElem hn, hget]
    match w, hwne, hget2 with
    | .idle, _, hget2 => exact ⟨_, Step.finish n ws res hget2⟩
    | .busy r2, _, hget2 => exact ⟨_, Step.publish n r2 [] ws res hget2⟩
    | .done, hwne, _ => exact absurd rfl hwne

lemma pool_measure_decreases {api : String → Except String HttpResponse}
    {s t : PoolState} (hst : Step api s t) : poolMeasure t < poolMeasure s := by
  cases hst with
  | claim i r rest ws res h =>
    have hsum := sum_map_set wWeight ws i .idle (.busy r) h
    simp only [wWeight] at hsum
    simp only [poolMeasure, List.length_cons]
    omega
  | publish i r p ws res h =>
    have hsum := sum_map_set wWeight ws i (.busy r) .idle h
    simp only [wWeight] at hsum
    simp only [poolMeasure]
    omega
  | finish i ws res h =>
    have hsum := sum_map_set wWeight ws i .idle .done h
    simp only [wWeight] at hsum
    simp only [poolMeasure]
    omega

lemma pool_final_kinds {api : String → Except String HttpResponse}
    {jobs0 : List String} {W : Nat} {s : PoolState}
    (hinv : PoolInv api jobs0 W s) (hf : Final s) :
    (↑(s.results.map msgKind) : Multiset OutcomeKind) = ↑(jobs0.map (jobKind api)) := by
  obtain ⟨hlen, hdone2, hkinds⟩ := hinv
  obtain ⟨hp, hws⟩ := hf
  have hfm : s.workers.filterMap (wKind api) = [] := by
    rw [List.filterMap_eq_nil_iff]
    intro w hw
    rw [hws w hw]
    rfl
  rw [← hkinds]
  simp [stateKinds, hp, hfm]

lemma pool_final_length {api : String → Except String HttpResponse}
    {jobs0 : List String} {W : Nat} {s : PoolState}
    (hinv : PoolInv api jobs0 W s) (hf : Final s) :
    s.results.length = jobs0.length := by
  have hk := pool_final_kinds hinv hf
  have := congrArg Multiset.card hk
  simpa using this

/-! ## Helper lemmas: retry, configuration, coordinator, and failure detail -/

lemma infix_data_middle (a c : String) (x s : String) (h : s = a ++ (x ++ c)) :
    x.data <:+: s.data := by
  subst h
  exact ⟨a.data, c.data, by simp [String.data_append]⟩

lemma attemptLoop_used_le (net : Nat → Option HttpResponse) :
    ∀ (fuel k : Nat) (res : HttpResponse) (used : Nat),
      attemptLoop net k fuel = some (res, used) → used ≤ k + fuel := by
  intro fuel
  induction fuel with
  | zero => intro k res used h; simp [attemptLoop] at h
  | succ n ih =>
    intro k res used h
    rw [attemptLoop] at h
    cases hnet : net k with
    | some r => rw [hnet] at h; simp at h; omega
    | none =>
      rw [hnet] at h
      have := ih (k + 1) res used h
      omega

lemma executeWithRetry_used_le (net : Nat → Option HttpResponse) (c : Nat) :
    (executeWithRetry net c).2 ≤ c := by
  unfold executeWithRetry
  cases h : attemptLoop net 0 c with
  | none => simp
  | some p =>
    obtain ⟨res, used⟩ := p
    have := attemptLoop_used_le net c 0 res used h
    simpa using this

lemma attemptLoop_all_fail (net : Nat → Option HttpResponse) :
    ∀ (fuel k : Nat), (∀ j, j < fuel → net (k + j) = none) →
      attemptLoop net k fuel = none := by
  intro fuel
  induction fuel with
  | zero => intro k _; simp [attemptLoop]
  | succ n ih =>
    intro k h
    rw [attemptLoop]
    have h0 : net k = none := by simpa using h 0 (Nat.succ_pos n)
    rw [h0]
    exact ih (k + 1) (fun j hj => by
      have := h (j + 1) (by omega)
      simpa [Nat.add_assoc, Nat.add_comm 1 j] using this)

lemma executeWithRetry_exhausted (net : Nat → Option HttpResponse) (c : Nat)
    (h : ∀ k, k < c → net k = none) :
    executeWithRetry net c = (.error "connection failure: retries exhausted", c) := by
  unfold executeWithRetry
  rw [attemptLoop_all_fail net c 0 (fun j hj => by simpa using h j hj)]

lemma retryBackoffWait_bounds (attempt : Nat) :
    clientRetryWaitTime ≤
        retryBackoffWait clientRetryWaitTime clientRetryMaxWaitTime attempt ∧
      retryBackoffWait clientRetryWaitTime clientRetryMaxWaitTime attempt ≤
        clientRetryMaxWaitTime := by
  constructor
  · apply le_min
    · have h1 : 1 ≤ 2 ^ attempt := Nat.one_le_two_pow
      calc clientRetryWaitTime = clientRetryWaitTime * 1 := by simp
        _ ≤ clientRetryWaitTime * 2 ^ attempt := Nat.mul_le_mul_left _ h1
    · simp [clientRetryWaitTime, clientRetryMaxWaitTime]
  · exact min_le_right _ _

lemma loadConfig_ok_repos {cf : Option (Option Config)} {cfg : Config}
    (h : loadConfig cf = .ok cfg) : cfg.repositories ≠ [] := by
  match cf with
  | none => simp [loadConfig] at h
  | some none => simp [loadConfig] at h
  | some (some c) =>
    rw [loadConfig] at h
    split at h
    · simp at h
    · split at h
      · simp at h
      · next hlen =>
        simp at h
        subst h
        intro hnil
        rw [hnil] at hlen
        simp at hlen

lemma sscanfSuccessOk_resultMsg (api : String → Except String HttpResponse)
    (w : Nat) (r : String) :
    sscanfSuccessOk (resultMsg api w r) = decide (transferRepo (api r) r = none) := by
  unfold resultMsg
  cases h : transferRepo (api r) r with
  | none => simp [sscanfSuccessOk_successMsg]
  | some e => simp [sscanfSuccessOk_failMsg]

lemma mainRun_completed (d : Bool) (token : String) (cf : Option (Option Config))
    (api : String → Except String HttpResponse) (cfg : Config)
    (hd : d = true) (ht : token ≠ "") (hc : loadConfig cf = .ok cfg) :
    mainRun d token cf api =
      (.completed cfg.repositories.length
        (tally (cfg.repositories.map (fun repo => resultMsg api 1 repo))).1
        (tally (cfg.repositories.map (fun repo => resultMsg api 1 repo))).2,
       cfg.repositories.length) := by
  have hne := loadConfig_ok_repos hc
  have hlen : cfg.repositories.length ≠ 0 := by
    intro h0
    exact hne (List.eq_nil_of_length_eq_zero h0)
  subst hd
  rw [mainRun]
  simp [ht, hc, hlen]


/-- **C1**: for every delivered HTTP response, `transferRepo` classifies the
outcome by status code in the fixed order of the spec's table: 202 yields
Success (a nil error), 401 yields Failure/Unauthorized, 403
Failure/Forbidden, 404 Failure/NotFound, 422 Failure/Unprocessable, and
every other status code yields Failure/Unexpected. -/
theorem C1_response_classification (repoName body : String) (code : Nat) :
    transferRepo (.ok ⟨code, body⟩) repoName =
      if code = 202 then none
      else if code = 401 then some (unauthorizedMsg repoName code body)
      else if code = 403 then some (forbiddenMsg repoName code body)
      else if code = 404 then some (notFoundMsg repoName code body)
      else if code = 422 then some (unprocessableMsg repoName code body)
      else some (unexpectedMsg repoName code body) := by
  have hres : transferRepo (.ok ⟨code, body⟩) repoName =
      match code with
      | 202 => none
      | 401 => some (unauthorizedMsg repoName code body)
      | 403 => some (forbiddenMsg repoName code body)
      | 404 => some (notFoundMsg repoName code body)
      | 422 => some (unprocessableMsg repoName code body)
      | _ => some (unexpectedMsg repoName code body) := rfl
  rw [hres]
  split <;> simp_all

/-- **C3** counterexample: the tally in `main` does NOT classify on a typed
outcome kind — it re-parses the free-text result message with
`fmt.Sscanf(resMsg, "[SUCCESS]%s", ...)`.  The classifier is a function of
the message text: two renderings of the same successful outcome are
classified differently (the worker's `[SUCCESS] ...` line counts as a
success, while the same information phrased without the parsed prefix counts
as a failure), so the counting is by string re-parsing, refuting the claim
as a description of the code. -/
theorem C3_counterexample :
    sscanfSuccessOk (successMsg 1 "demo") = true ∧
    sscanfSuccessOk "Worker 1, Repo demo: Transfer successful" = false := by
  constructor
  · decide
  · decide

/-- **C3** amended: the result aggregation in `main` classifies each result
message by re-parsing its text with `Sscanf` against `"[SUCCESS]%s"`; for
every message a worker actually emits this string test agrees with the
outcome kind (Success versus any Failure variant), so the final tally equals
the typed outcome-kind tally. -/
theorem C3_tally_matches_kind (api : String → Except String HttpResponse)
    (w : Nat) (r e : String) :
    msgKind (resultMsg api w r) = jobKind api r ∧
    sscanfSuccessOk (successMsg w r) = true ∧
    sscanfSuccessOk (failMsg w r e) = false :=
  ⟨msgKind_resultMsg api w r, sscanfSuccessOk_successMsg w r, sscanfSuccessOk_failMsg w r e⟩

/-- **C4**: on connection failures or transport errors each job's request is
attempted up to 3 attempts in total (the configured default), with backoff
between attempts bounded below by the initial wait 2s and above by the
maximum 10s, and regardless of how many attempts occur the job yields
exactly one terminal outcome — `Failure/TransportError` (the single
client-error message) once attempts are exhausted.  The retry loop itself
lives in the resty library (not under `src/`) and is modelled from the spec;
the constants are the ones `main` configures. -/
theorem C4_transport_retry (net : Nat → Option HttpResponse) (repoName : String) :
    (executeWithRetry net clientRetryCount).2 ≤ clientRetryCount ∧
    (∀ attempt : Nat,
        clientRetryWaitTime ≤
            retryBackoffWait clientRetryWaitTime clientRetryMaxWaitTime attempt ∧
          retryBackoffWait clientRetryWaitTime clientRetryMaxWaitTime attempt ≤
            clientRetryMaxWaitTime) ∧
    ((∀ k, k < clientRetryCount → net k = none) →
        transferRepo (executeWithRetry net clientRetryCount).1 repoName =
          some (clientFailedMsg repoName "connection failure: retries exhausted")) ∧
    (∀ workerID,
        (jobMessages (executeWithRetry net clientRetryCount).1 workerID repoName).length
          = 1) := by
  refine ⟨executeWithRetry_used_le net clientRetryCount,
    retryBackoffWait_bounds, ?_, ?_⟩
  · intro hfail
    rw [executeWithRetry_exhausted net clientRetryCount hfail]
    rfl
  · intro workerID
    unfold jobMessages
    cases transferRepo (executeWithRetry net clientRetryCount).1 repoName <;> rfl

/-- **C4** witness: a network that always fails exhausts the 3 attempts and
produces the single transport-error outcome. -/
theorem C4_transport_retry_witness :
    (∀ k, k < clientRetryCount → (fun _ : Nat => (none : Option HttpResponse)) k = none) ∧
    transferRepo (executeWithRetry (fun _ => none) clientRetryCount).1 "r" =
      some (clientFailedMsg "r" "connection failure: retries exhausted") :=
  ⟨fun _ _ => rfl,
    (C4_transport_retry (fun _ => none) "r").2.2.1 (fun _ _ => rfl)⟩

/-- **C5**: if the credential is empty, or the config is malformed (missing
`originalUser` or `newUser`, or an empty `repositories` list), the run
aborts before any job executes — zero jobs are dispatched and the process
terminates in the `credentialError` / `configError` terminal state;
conversely, when the run proceeds, every per-job failure is recorded in the
tally and is never fatal: the run reaches `completed` with all jobs
dispatched, whatever the network does. -/
theorem C5_fatal_before_dispatch (d : Bool) (token : String)
    (cf : Option (Option Config)) (api : String → Except String HttpResponse)
    (hd : d = true) :
    (token = "" → mainRun d token cf api = (.credentialError, 0)) ∧
    (∀ e, token ≠ "" → loadConfig cf = .error e →
        mainRun d token cf api = (.configError e, 0)) ∧
    (∀ c : Config, c.originalUser = "" ∨ c.newUser = "" ∨ c.repositories = [] →
        ∃ e, loadConfig (some (some c)) = .error e) ∧
    (∀ cfg, token ≠ "" → loadConfig cf = .ok cfg →
        ∃ s f, mainRun d token cf api =
            (.completed cfg.repositories.length s f, cfg.repositories.length) ∧
          s + f = cfg.repositories.length) := by
  subst hd
  refine ⟨?_, ?_, ?_, ?_⟩
  · intro ht
    simp [mainRun, ht]
  · intro e ht he
    simp [mainRun, ht, he]
  · intro c hc
    by_cases h12 : c.originalUser = "" ∨ c.newUser = ""
    · exact ⟨"originalUser and newUser must be specified in config",
        by simp [loadConfig, h12]⟩
    · have h3 : c.repositories = [] := by tauto
      exact ⟨"repositories list cannot be empty in config",
        by simp [loadConfig, h12, h3]⟩
  · intro cfg ht hc
    refine ⟨_, _, mainRun_completed true token cf api cfg rfl ht hc, ?_⟩
    rw [tally_sum]
    simp

/-- **C5** witness: an empty credential aborts with `credentialError` and
zero jobs dispatched. -/
theorem C5_fatal_before_dispatch_witness :
    (true = true) ∧
    mainRun true "" (some (some ⟨"alice", "bob", ["r1"]⟩))
        (fun _ => Except.ok ⟨202, ""⟩) = (.credentialError, 0) :=
  ⟨rfl, (C5_fatal_before_dispatch true "" (some (some ⟨"alice", "bob", ["r1"]⟩))
    (fun _ => Except.ok ⟨202, ""⟩) rfl).1 rfl⟩

/-- **C10**: the empty-repository-list early-return branch in `main` (the
`len(allRepos) == 0` check after configuration loading) is unreachable:
whenever `loadConfig` succeeds its `repositories` list is non-empty, and no
run of `mainRun` ever terminates in the `earlyExit` state. -/
theorem C10_early_exit_unreachable (cf : Option (Option Config)) (cfg : Config)
    (h : loadConfig cf = .ok cfg) :
    cfg.repositories ≠ [] ∧
    ∀ (d : Bool) (token : String) (cf2 : Option (Option Config))
      (api : String → Except String HttpResponse),
      (mainRun d token cf2 api).1 ≠ .earlyExit := by
  refine ⟨loadConfig_ok_repos h, ?_⟩
  intro d token cf2 api
  cases d with
  | false => simp [mainRun]
  | true =>
    by_cases ht : token = ""
    · simp [mainRun, ht]
    · cases hc : loadConfig cf2 with
      | error e => simp [mainRun, ht, hc]
      | ok cfg2 =>
        rw [mainRun_completed true token cf2 api cfg2 rfl ht hc]
        simp

/-- **C10** witness: a concrete well-formed config is accepted by
`loadConfig` and has a non-empty repository list. -/
theorem C10_early_exit_unreachable_witness :
    loadConfig (some (some ⟨"alice", "bob", ["r1"]⟩)) = .ok ⟨"alice", "bob", ["r1"]⟩ ∧
    (⟨"alice", "bob", ["r1"]⟩ : Config).repositories ≠ [] :=
  ⟨rfl,
    (C10_early_exit_unreachable (some (some ⟨"alice", "bob", ["r1"]⟩))
      ⟨"alice", "bob", ["r1"]⟩ rfl).1⟩


lemma unauthorizedMsg_carries (r b : String) (c : Nat) :
    r.data <:+: (unauthorizedMsg r c b).data ∧
    (toString c).data <:+: (unauthorizedMsg r c b).data ∧
    b.data <:+: (unauthorizedMsg r c b).data :=
  ⟨infix_data_middle "repo "
      (": Unauthorized (HTTP " ++ (toString c ++
        ("). Check GitHub token and permissions. Response: " ++ b)))
      r _ (by simp [unauthorizedMsg, String.append_assoc]),
    infix_data_middle ("repo " ++ (r ++ ": Unauthorized (HTTP "))
      ("). Check GitHub token and permissions. Response: " ++ b)
      (toString c) _ (by simp [unauthorizedMsg, String.append_assoc]),
    infix_data_middle ("repo " ++ (r ++ (": Unauthorized (HTTP " ++
        (toString c ++ "). Check GitHub token and permissions. Response: "))))
      "" b _ (by simp [unauthorizedMsg, String.append_assoc])⟩

lemma forbiddenMsg_carries (r b : String) (c : Nat) :
    r.data <:+: (forbiddenMsg r c b).data ∧
    (toString c).data <:+: (forbiddenMsg r c b).data ∧
    b.data <:+: (forbiddenMsg r c b).data :=
  ⟨infix_data_middle "repo "
      (": Forbidden (HTTP " ++ (toString c ++
        ("). API rate limits or insufficient permissions. Response: " ++ b)))
      r _ (by simp [forbiddenMsg, String.append_assoc]),
    infix_data_middle ("repo " ++ (r ++ ": Forbidden (HTTP "))
      ("). API rate limits or insufficient permissions. Response: " ++ b)
      (toString c) _ (by simp [forbiddenMsg, String.append_assoc]),
    infix_data_middle ("repo " ++ (r ++ (": Forbidden (HTTP " ++
        (toString c ++ "). API rate limits or insufficient permissions. Response: "))))
      "" b _ (by simp [forbiddenMsg, String.append_assoc])⟩

lemma notFoundMsg_carries (r b : String) (c : Nat) :
    r.data <:+: (notFoundMsg r c b).data ∧
    (toString c).data <:+: (notFoundMsg r c b).data ∧
    b.data <:+: (notFoundMsg r c b).data :=
  ⟨infix_data_middle "repo "
      (": Repository or user not found (HTTP " ++ (toString c ++ ("). Response: " ++ b)))
      r _ (by simp [notFoundMsg, String.append_assoc]),
    infix_data_middle ("repo " ++ (r ++ ": Repository or user not found (HTTP "))
      ("). Response: " ++ b)
      (toString c) _ (by simp [notFoundMsg, String.append_assoc]),
    infix_data_middle ("repo " ++ (r ++ (": Repository or user not found (HTTP " ++
        (toString c ++ "). Response: "))))
      "" b _ (by simp [notFoundMsg, String.append_assoc])⟩

lemma unprocessableMsg_carries (r b : String) (c : Nat) :
    r.data <:+: (unprocessableMsg r c b).data ∧
    (toString c).data <:+: (unprocessableMsg r c b).data ∧
    b.data <:+: (unprocessableMsg r c b).data :=
  ⟨infix_data_middle "repo "
      (": Unprocessable Entity (HTTP " ++ (toString c ++
        ("). Semantic errors. Response: " ++ b)))
      r _ (by simp [unprocessableMsg, String.append_assoc]),
    infix_data_middle ("repo " ++ (r ++ ": Unprocessable Entity (HTTP "))
      ("). Semantic errors. Response: " ++ b)
      (toString c) _ (by simp [unprocessableMsg, String.append_assoc]),
    infix_data_middle ("repo " ++ (r ++ (": Unprocessable Entity (HTTP " ++
        (toString c ++ "). Semantic errors. Response: "))))
      "" b _ (by simp [unprocessableMsg, String.append_assoc])⟩

lemma unexpectedMsg_carries (r b : String) (c : Nat) :
    r.data <:+: (unexpectedMsg r c b).data ∧
    (toString c).data <:+: (unexpectedMsg r c b).data ∧
    b.data <:+: (unexpectedMsg r c b).data :=
  ⟨infix_data_middle "repo "
      (": Unexpected status code (HTTP " ++ (toString c ++ ("). Response: " ++ b)))
      r _ (by simp [unexpectedMsg, String.append_assoc]),
    infix_data_middle ("repo " ++ (r ++ ": Unexpected status code (HTTP "))
      ("). Response: " ++ b)
      (toString c) _ (by simp [unexpectedMsg, String.append_assoc]),
    infix_data_middle ("repo " ++ (r ++ (": Unexpected status code (HTTP " ++
        (toString c ++ "). Response: "))))
      "" b _ (by simp [unexpectedMsg, String.append_assoc])⟩

lemma clientFailedMsg_carries (r e : String) :
    r.data <:+: (clientFailedMsg r e).data ∧
    e.data <:+: (clientFailedMsg r e).data :=
  ⟨infix_data_middle "client request for repo " (" failed: " ++ e)
      r _ (by simp [clientFailedMsg, String.append_assoc]),
    infix_data_middle ("client request for repo " ++ (r ++ " failed: ")) ""
      e _ (by simp [clientFailedMsg, String.append_assoc])⟩

/-- **C6**: for every job the worker builds exactly one POST request to
`https://api.github.com/repos/<sourceAccount>/<resourceName>/transfer` with
JSON body fields `new_owner = <destinationAccount>` and
`new_name = <resourceName>` and the required headers `Accept:
application/vnd.github+json`, `Authorization: Bearer <credential>`, the
API-version header `X-GitHub-Api-Version: 2022-11-28`, and `Content-Type:
application/json` (the last added by the resty client when serializing the
map body, modelled from the spec); one request record per job. -/
theorem C6_request_shape (oUser nUser repoName githubToken : String)
    (repos : List String) :
    (transferRequest (transferAPIURL oUser repoName) nUser repoName githubToken).method
        = "POST" ∧
    (transferRequest (transferAPIURL oUser repoName) nUser repoName githubToken).url
        = "https://api.github.com/repos/" ++ oUser ++ "/" ++ repoName ++ "/transfer" ∧
    (transferRequest (transferAPIURL oUser repoName) nUser repoName githubToken).bodyFields
        = [("new_owner", nUser), ("new_name", repoName)] ∧
    ("Accept", "application/vnd.github+json")
        ∈ (transferRequest (transferAPIURL oUser repoName) nUser repoName githubToken).headers ∧
    ("Authorization", "Bearer " ++ githubToken)
        ∈ (transferRequest (transferAPIURL oUser repoName) nUser repoName githubToken).headers ∧
    ("X-GitHub-Api-Version", "2022-11-28")
        ∈ (transferRequest (transferAPIURL oUser repoName) nUser repoName githubToken).headers ∧
    ("Content-Type", "application/json")
        ∈ (transferRequest (transferAPIURL oUser repoName) nUser repoName githubToken).headers ∧
    (repos.map fun r => transferRequest (transferAPIURL oUser r) nUser r githubToken).length
        = repos.length := by
  refine ⟨rfl, rfl, rfl, ?_, ?_, ?_, ?_, by simp⟩ <;>
    simp [transferRequest, restyJSONContentType]

/-- **C7** counterexample: the failure detail does not contain a *bounded*
excerpt of the response body — `transferRepo` interpolates the full
`res.String()` with no truncation, so no bound on the failure message length
holds across response bodies. -/
theorem C7_counterexample :
    ¬ ∃ bound : Nat, ∀ body msg : String,
        transferRepo (.ok ⟨401, body⟩) "r" = some msg → msg.length ≤ bound := by
  rintro ⟨bound, h⟩
  have hmsg := h ⟨List.replicate (bound + 1) 'a'⟩
    (unauthorizedMsg "r" 401 ⟨List.replicate (bound + 1) 'a'⟩) rfl
  have hlen : (unauthorizedMsg "r" 401 ⟨List.replicate (bound + 1) 'a'⟩).length
      ≥ bound + 1 := by
    have : (⟨List.replicate (bound + 1) 'a'⟩ : String).length = bound + 1 := by
      simp [String.length]
    simp [unauthorizedMsg, String.length_append, this]
  omega

/-- **C7** amended: every Failure outcome produced by `transferRepo` carries
the resource name, the numeric HTTP status code when a response was
received, and the full response body (not a bounded excerpt); transport
errors carry the resource name and the underlying error text.  No outcome
omits which job it belongs to. -/
theorem C7_failure_detail (repoName body errText msg : String) (code : Nat) :
    (transferRepo (.ok ⟨code, body⟩) repoName = some msg →
        repoName.data <:+: msg.data ∧ (toString code).data <:+: msg.data ∧
          body.data <:+: msg.data) ∧
    (transferRepo (.error errText) repoName = some msg →
        repoName.data <:+: msg.data ∧ errText.data <:+: msg.data) := by
  have hres : transferRepo (.ok ⟨code, body⟩) repoName =
      match code with
      | 202 => none
      | 401 => some (unauthorizedMsg repoName code body)
      | 403 => some (forbiddenMsg repoName code body)
      | 404 => some (notFoundMsg repoName code body)
      | 422 => some (unprocessableMsg repoName code body)
      | _ => some (unexpectedMsg repoName code body) := rfl
  constructor
  · intro h
    rw [hres] at h
    split at h
    · exact absurd h (by simp)
    · rw [Option.some_inj] at h
      rw [← h]
      exact unauthorizedMsg_carries repoName body _
    · rw [Option.some_inj] at h
      rw [← h]
      exact forbiddenMsg_carries repoName body _
    · rw [Option.some_inj] at h
      rw [← h]
      exact notFoundMsg_carries repoName body _
    · rw [Option.some_inj] at h
      rw [← h]
      exact unprocessableMsg_carries repoName body _
    · rw [Option.some_inj] at h
      rw [← h]
      exact unexpectedMsg_carries repoName body _
  · intro h
    have h2 : clientFailedMsg repoName errText = msg := by
      simpa [transferRepo] using h
    rw [← h2]
    exact clientFailedMsg_carries repoName errText

/-- **C7** witness: the 401 failure message for a concrete repo and body
contains the repo name, the status code `401`, and the body. -/
theorem C7_failure_detail_witness :
    transferRepo (.ok ⟨401, "BODY"⟩) "repo1" = some (unauthorizedMsg "repo1" 401 "BODY") ∧
    ("repo1".data <:+: (unauthorizedMsg "repo1" 401 "BODY").data ∧
      (toString 401).data <:+: (unauthorizedMsg "repo1" 401 "BODY").data ∧
      "BODY".data <:+: (unauthorizedMsg "repo1" 401 "BODY").data) :=
  ⟨rfl, (C7_failure_detail "repo1" "BODY" "" (unauthorizedMsg "repo1" 401 "BODY") 401).1 rfl⟩

/-- **C9**: the string-parsing tally in `main` is equivalent to typed
outcome-kind discrimination — for every result message emitted by a worker,
the `Sscanf` check with format `"[SUCCESS]%s"` succeeds exactly when that
worker's `transferRepo` call returned nil, so `successCount` equals the
number of nil-returning jobs and `failureCount` the number of
error-returning jobs, for any list of (workerID, repo) jobs. -/
theorem C9_sscanf_equiv (api : String → Except String HttpResponse)
    (pairs : List (Nat × String)) :
    tally (pairs.map fun p => resultMsg api p.1 p.2) =
      (pairs.countP (fun p => decide (transferRepo (api p.2) p.2 = none)),
       pairs.countP (fun p => decide (transferRepo (api p.2) p.2 ≠ none))) ∧
    (∀ w r, sscanfSuccessOk (resultMsg api w r)
        = decide (transferRepo (api r) r = none)) := by
  constructor
  · rw [tally_eq]
    simp only [Prod.mk.injEq]
    constructor
    · rw [List.countP_map]
      apply List.countP_congr
      intro p _
      simp [Function.comp, sscanfSuccessOk_resultMsg]
    · rw [List.countP_map]
      apply List.countP_congr
      intro p _
      simp [Function.comp, sscanfSuccessOk_resultMsg]
  · exact sscanfSuccessOk_resultMsg api


/-- **C2**: for every job list of size K and worker count W ≥ 1, every
terminated (final) execution of the pool has the aggregator observe exactly
K outcomes, and the final summary satisfies
`successCount + failureCount = K` — no job dropped, none double-counted. -/
theorem C2_aggregator_conservation (api : String → Except String HttpResponse)
    (jobs0 : List String) (W : Nat) (hW : 1 ≤ W) (s : PoolState)
    (hs : Reachable api jobs0 W s) (hf : Final s) :
    s.results.length = jobs0.length ∧
    (tally s.results).1 + (tally s.results).2 = jobs0.length := by
  have hinv := poolInv_reachable hs
  have hlen := pool_final_length hinv hf
  exact ⟨hlen, by rw [tally_sum, hlen]⟩

/-- **C2** witness: an explicit three-step execution of a one-job, one-worker
pool reaches a final state with exactly one outcome and a tally summing
to 1. -/
theorem C2_aggregator_conservation_witness :
    (1 ≤ 1) ∧
    (PoolState.mk [] [WStatus.done]
        [resultMsgW (fun _ => Except.ok ⟨202, ""⟩) 0 "a"]).results.length = 1 ∧
    (tally (PoolState.mk [] [WStatus.done]
        [resultMsgW (fun _ => Except.ok ⟨202, ""⟩) 0 "a"]).results).1 +
      (tally (PoolState.mk [] [WStatus.done]
        [resultMsgW (fun _ => Except.ok ⟨202, ""⟩) 0 "a"]).results).2 = 1 := by
  refine ⟨by decide, ?_⟩
  have h1 : Step (fun _ => Except.ok ⟨202, ""⟩) (initState ["a"] 1)
      ⟨[], [.busy "a"], []⟩ :=
    Step.claim 0 "a" [] [.idle] [] (by simp)
  have h2 : Step (fun _ => Except.ok ⟨202, ""⟩) ⟨[], [.busy "a"], []⟩
      ⟨[], [.idle], [resultMsgW (fun _ => Except.ok ⟨202, ""⟩) 0 "a"]⟩ :=
    Step.publish 0 "a" [] [.busy "a"] [] (by simp)
  have h3 : Step (fun _ => Except.ok ⟨202, ""⟩)
      ⟨[], [.idle], [resultMsgW (fun _ => Except.ok ⟨202, ""⟩) 0 "a"]⟩
      ⟨[], [.done], [resultMsgW (fun _ => Except.ok ⟨202, ""⟩) 0 "a"]⟩ :=
    Step.finish 0 [.idle] [resultMsgW (fun _ => Except.ok ⟨202, ""⟩) 0 "a"] (by simp)
  have hreach : Reachable (fun _ => Except.ok ⟨202, ""⟩) ["a"] 1
      ⟨[], [.done], [resultMsgW (fun _ => Except.ok ⟨202, ""⟩) 0 "a"]⟩ :=
    Relation.ReflTransGen.head h1 (Relation.ReflTransGen.head h2
      (Relation.ReflTransGen.head h3 Relation.ReflTransGen.refl))
  exact C2_aggregator_conservation (fun _ => Except.ok ⟨202, ""⟩) ["a"] 1
    (by decide) _ hreach ⟨rfl, by simp⟩

/-- **C8**: for every job list (duplicates permitted — each list element is
an independent job) and any worker count W ≥ 1: every reachable non-final
state can take a step (no deadlock), every step strictly decreases a
natural-number measure (every execution terminates, workers included, after
the queue is drained), and the multiset of outcome kinds in any final state
equals the job-kind multiset of the seeded list — independent of W and of
the schedule.  Each job is removed from the queue by exactly one `claim`
step and published by exactly one `publish` step, which the kind-multiset
conservation makes exact. -/
theorem C8_worker_pool (api : String → Except String HttpResponse)
    (jobs0 : List String) (W : Nat) (hW : 1 ≤ W) (s : PoolState)
    (hs : Reachable api jobs0 W s) :
    (¬ Final s → ∃ t, Step api s t) ∧
    (∀ t, Step api s t → poolMeasure t < poolMeasure s) ∧
    (Final s →
        (↑(s.results.map msgKind) : Multiset OutcomeKind)
            = ↑(jobs0.map (jobKind api)) ∧
          s.results.length = jobs0.length) := by
  have hinv := poolInv_reachable hs
  exact ⟨fun hnf => pool_progress hW hinv hnf,
    fun t hst => pool_measure_decreases hst,
    fun hf => ⟨pool_final_kinds hinv hf, pool_final_length hinv hf⟩⟩

/-- **C8** witness: the pool properties instantiated at a concrete two-job,
two-worker initial state. -/
theorem C8_worker_pool_witness :
    (1 ≤ 2) ∧
    ((¬ Final (initState ["a", "b"] 2) →
        ∃ t, Step (fun _ => Except.ok ⟨202, ""⟩) (initState ["a", "b"] 2) t) ∧
      (∀ t, Step (fun _ => Except.ok ⟨202, ""⟩) (initState ["a", "b"] 2) t →
          poolMeasure t < poolMeasure (initState ["a", "b"] 2)) ∧
      (Final (initState ["a", "b"] 2) →
          (↑((initState ["a", "b"] 2).results.map msgKind) : Multiset OutcomeKind)
              = ↑(["a", "b"].map (jobKind (fun _ => Except.ok ⟨202, ""⟩))) ∧
            (initState ["a", "b"] 2).results.length = ["a", "b"].length)) :=
  ⟨by decide,
    C8_worker_pool (fun _ => Except.ok ⟨202, ""⟩) ["a", "b"] 2 (by decide)
      (initState ["a", "b"] 2) Relation.ReflTransGen.refl⟩


end TransferScript
